import Mathlib

/-!
Shallow embedding of the chunked-upload core from `chunk-upload.go`
(repository `threeaccents/go-large-file-upload-example`).

Modelling conventions:

* Bytes are modelled as `List Char`, one `Char` per byte.  This is faithful
  for single-byte data; nothing in the source inspects multi-byte structure,
  it only creates, copies and concatenates byte streams.
* The filesystem is modelled as a finite collection of directory paths and
  of files with contents, keyed by the literal path strings the source
  constructs with `fmt.Sprintf` / string concatenation.  `""` and `"."`
  stand for the working directory and always exist.
* Errors are modelled structurally: each constructor records which Go error
  value was produced, and `Err.wrap` records one `fmt.Errorf` wrapping with
  its literal context text.  `errText` renders the corresponding Go error
  string.
* Fallible operations return `Except Err`; state is threaded explicitly.
-/

abbrev Bytes := List Char

/-- Structural model of the error values flowing through the source:
`io.EOF`, `os.PathError`s, `strconv.NumError`s, the hand-made form-name
mismatch error of `getPart`, and `fmt.Errorf` context wrapping. -/
inductive Err where
  | ioEOF : Err
  | osErr (op path msg : String) : Err
  | strconvErr (input : String) (isRange : Bool) : Err
  | nameMismatch (expected actual : String) : Err
  | wrap (ctx : String) (inner : Err) : Err
deriving DecidableEq

/-- Rendering of an `Err` as the Go error message text. -/
def errText : Err → String
  | .ioEOF => "EOF"
  | .osErr op path msg => op ++ " " ++ path ++ ": " ++ msg
  | .strconvErr input isRange =>
      "strconv.ParseInt: parsing \"" ++ input ++ "\": " ++
        (if isRange then "value out of range" else "invalid syntax")
  | .nameMismatch expected actual =>
      "invalid form name for part. Expected " ++ expected ++ " got " ++ actual
  | .wrap ctx inner => ctx ++ errText inner

/-- `sub` occurs contiguously inside `s`. -/
def strContains (s sub : String) : Prop := sub.data <:+: s.data

/-- True exactly when the error is a `fmt.Errorf("... %w", err)` wrapping;
a bare (unwrapped) error has `isWrapped e = false`. -/
def isWrapped : Err → Bool
  | .wrap _ _ => true
  | _ => false

/-- Decimal value of a digit string (used only after an all-digits check). -/
def digitsToNat (ds : List Char) : Nat :=
  ds.foldl (fun a c => a * 10 + (c.toNat - 48)) 0

/-- The digit characters of a decimal literal, after an optional single
leading sign. -/
def goParseIntDigits (s : String) : List Char :=
  match s.data with
  | '-' :: r => r
  | '+' :: r => r
  | r => r

/-- Whether the decimal literal carries a leading minus sign. -/
def goParseIntNeg (s : String) : Bool :=
  match s.data with | '-' :: _ => true | _ => false

/-- The mathematical (unclamped) signed value of the literal. -/
def goParseVal (s : String) : Int :=
  if goParseIntNeg s then -(digitsToNat (goParseIntDigits s) : Int)
  else (digitsToNat (goParseIntDigits s) : Int)

/-- Model of Go `strconv.ParseInt(s, 10, bitSize)`: returns the value Go
returns together with the error, if any.  On a syntax error Go returns 0;
on a range error Go returns the clamped extreme of the requested bit size. -/
def goParseInt (s : String) (bitSize : Nat) : Int × Option Err :=
  if (goParseIntDigits s).isEmpty || !(goParseIntDigits s).all Char.isDigit then
    (0, some (.strconvErr s false))
  else if goParseVal s < -(2 ^ (bitSize - 1)) then
    (-(2 ^ (bitSize - 1)), some (.strconvErr s true))
  else if (2 ^ (bitSize - 1) - 1 : Int) < goParseVal s then
    (2 ^ (bitSize - 1) - 1, some (.strconvErr s true))
  else (goParseVal s, none)

/-- The value of Go `strconv.Atoi(s)` with the error discarded, exactly as
`ByChunk.Less` uses it (`ai, _ := strconv.Atoi(...)`); `int` is 64-bit. -/
def atoiVal (s : String) : Int := (goParseInt s 64).1

/-- Source constant `maxChunkSize = int64(5 << 20)`. -/
def maxChunkSize : Nat := 5 * 2 ^ 20

/-- Source constant `uploadDir = "./data/chunks"`. -/
def uploadDir : String := "./data/chunks"

/-- One part of the multipart body: its declared form name and its content.
The content doubles as the raw byte stream (`content.data`) when the part
is consumed as the chunk payload. -/
structure FormPart where
  formName : String
  content : String
deriving DecidableEq

/-- The `Chunk` struct of the source. -/
structure Chunk where
  UploadID : String
  ChunkNumber : Int
  TotalChunks : Int
  TotalFileSize : Int
  Filename : String
  Data : Bytes
  UploadDir : String
deriving DecidableEq

/-- Source `getPart`: read the next part, failing on end of stream
(wrapped `io.EOF`) or on a declared-name mismatch; on success the part's
content is accumulated and the rest of the stream returned. -/
def getPart (expected : String) (parts : List FormPart) :
    Except Err (String × List FormPart) :=
  match parts with
  | [] => .error (.wrap ("failed reading " ++ expected ++ " part ") .ioEOF)
  | p :: rest =>
      if p.formName = expected then .ok (p.content, rest)
      else .error (.nameMismatch expected p.formName)

/-- Source `ParseChunk`: the fixed six-step decode.  Steps 2 and 3 parse
with bit size 32, step 4 with bit size 64; the integer-parse errors are
returned bare, exactly as in the source (`return nil, err`). -/
def ParseChunk (parts : List FormPart) : Except Err Chunk :=
  match getPart "upload_id" parts with
  | .error e => .error e
  | .ok (uid, parts1) =>
    match getPart "chunk_number" parts1 with
    | .error e => .error e
    | .ok (cnS, parts2) =>
      match goParseInt cnS 32 with
      | (_, some e) => .error e
      | (cn, none) =>
        match getPart "total_chunks" parts2 with
        | .error e => .error e
        | .ok (tcS, parts3) =>
          match goParseInt tcS 32 with
          | (_, some e) => .error e
          | (tc, none) =>
            match getPart "total_file_size" parts3 with
            | .error e => .error e
            | .ok (tfsS, parts4) =>
              match goParseInt tfsS 64 with
              | (_, some e) => .error e
              | (tfs, none) =>
                match getPart "file_name" parts4 with
                | .error e => .error e
                | .ok (fn, parts5) =>
                  match parts5 with
                  | [] => .error (.wrap "failed reading chunk part " .ioEOF)
                  | p :: _ =>
                    .ok { UploadID := uid, ChunkNumber := cn, TotalChunks := tc,
                          TotalFileSize := tfs, Filename := fn,
                          Data := p.content.data,
                          UploadDir := uploadDir ++ "/" ++ uid }

/-- Filesystem model: existing directory paths and files with contents,
keyed by the literal path strings the source builds. -/
structure FS where
  dirs : List String
  files : List (String × Bytes)
deriving DecidableEq

def fileContent? (fs : FS) (p : String) : Option Bytes :=
  (fs.files.find? (fun e => e.1 == p)).map (fun e => e.2)

def isFile (fs : FS) (p : String) : Bool := (fileContent? fs p).isSome

def pathComponents (p : String) : List String :=
  (p.data.splitOn '/').map (fun cs => String.mk cs)

def joinPath (cs : List String) : String := String.intercalate "/" cs

def parentDir (p : String) : String := joinPath (pathComponents p).dropLast

/-- `""` and `"."` denote the working directory, which always exists. -/
def dirExists (fs : FS) (d : String) : Bool :=
  d == "" || d == "." || fs.dirs.contains d

/-- All path prefixes of `p` along `/` boundaries, shortest first. -/
def ancestors (p : String) : List String :=
  let cs := pathComponents p
  (List.range cs.length).map (fun i => joinPath (cs.take (i + 1)))

/-- Model of `os.MkdirAll`: create the directory and any missing parents,
idempotently; fail when an existing file blocks the path. -/
def mkdirAll (fs : FS) (p : String) : Except Err FS :=
  if (ancestors p).any (fun q => isFile fs q) then
    .error (.osErr "mkdir" p "not a directory")
  else
    .ok { fs with
          dirs := fs.dirs ++ ((ancestors p).filter (fun q => !fs.dirs.contains q)) }

/-- Model of `os.Create`: create or truncate a file; fails when the path is
an existing directory or the parent directory does not exist. -/
def osCreate (fs : FS) (p : String) : Except Err FS :=
  if fs.dirs.contains p then .error (.osErr "open" p "is a directory")
  else if dirExists fs (parentDir p) then
    .ok { fs with files := (p, ([] : Bytes)) :: fs.files.filter (fun e => e.1 != p) }
  else .error (.osErr "open" p "no such file or directory")

/-- Overwrite the content of file `p`. -/
def setFile (fs : FS) (p : String) (bs : Bytes) : FS :=
  { fs with files := (p, bs) :: fs.files.filter (fun e => e.1 != p) }

/-- Source `StoreChunk`: create `<UploadDir>/<ChunkNumber>` and copy at
most `maxChunkSize` bytes into it (`io.CopyN`); `io.EOF` from a short
payload is tolerated, so truncation at the cap and a short payload are
both success. -/
def StoreChunk (fs : FS) (chunk : Chunk) : Except Err FS :=
  match osCreate fs (chunk.UploadDir ++ "/" ++ toString chunk.ChunkNumber) with
  | .error e => .error e
  | .ok fs1 =>
      .ok (setFile fs1 (chunk.UploadDir ++ "/" ++ toString chunk.ChunkNumber)
            (chunk.Data.take maxChunkSize))

/-- Source `ProcessChunk`: parse (wrapping failures with
"failed to parse chunk"), then `os.MkdirAll(chunk.UploadID, 02750)`
— note: the bare upload id, not `chunk.UploadDir` — then store; the mkdir
and store errors are returned bare. -/
def ProcessChunk (fs : FS) (parts : List FormPart) : Except Err FS :=
  match ParseChunk parts with
  | .error e => .error (.wrap "failed to parse chunk " e)
  | .ok chunk =>
    match mkdirAll fs chunk.UploadID with
    | .error e => .error e
    | .ok fs1 => StoreChunk fs1 chunk

/-- The comparison underlying `ByChunk.Less`: ascending by `strconv.Atoi`
value of the file name, parse errors discarded. -/
def byChunkLE (a b : String) : Prop := atoiVal a ≤ atoiVal b

instance : DecidableRel byChunkLE := fun a b =>
  inferInstanceAs (Decidable (atoiVal a ≤ atoiVal b))

instance : IsTotal String byChunkLE :=
  ⟨fun a b => Int.le_total (atoiVal a) (atoiVal b)⟩

instance : IsTrans String byChunkLE :=
  ⟨fun _ _ _ hab hbc => Int.le_trans hab hbc⟩

/-- `sort.Sort(ByChunk(fileInfos))`: a sort of the file names consistent
with `ByChunk.Less` (the source's sort is unstable; any order sorted under
`byChunkLE` is a faithful refinement, fixed here deterministically). -/
def sortByChunk (names : List String) : List String :=
  List.insertionSort byChunkLE names

/-- Byte-wise (code-point) string order of `ioutil.ReadDir`'s listing. -/
def charListLe : List Char → List Char → Bool
  | [], _ => true
  | _ :: _, [] => false
  | a :: as, b :: bs =>
      if a < b then true else if b < a then false else charListLe as bs

def lexLE (a b : String) : Prop := charListLe a.data b.data = true

instance : DecidableRel lexLE := fun a b =>
  inferInstanceAs (Decidable (charListLe a.data b.data = true))

/-- The name under which `q` is an immediate child of directory `dir`,
if it is one. -/
def childName? (dir q : String) : Option String :=
  let pre := (dir ++ "/").data
  if pre.isPrefixOf q.data then
    let rest := q.data.drop pre.length
    if rest.isEmpty || rest.contains '/' then none else some (String.mk rest)
  else none

/-- Model of `ioutil.ReadDir`: list the names of the immediate entries of
`dir`, sorted by filename, or fail when the directory does not exist. -/
def ioReadDir (fs : FS) (dir : String) : Except Err (List String) :=
  if fs.dirs.contains dir then
    .ok (List.insertionSort lexLE
          (((fs.dirs ++ fs.files.map Prod.fst).filterMap (childName? dir)).eraseDups))
  else .error (.osErr "open" dir "no such file or directory")

/-- `p` is the path `root` itself or lies strictly under it. -/
def atOrUnder (root p : String) : Bool :=
  p == root || (root ++ "/").data.isPrefixOf p.data

/-- Model of `os.RemoveAll`: delete the path and everything under it. -/
def removeAll (fs : FS) (p : String) : FS :=
  { dirs := fs.dirs.filter (fun d => !atOrUnder p d),
    files := fs.files.filter (fun e => !atOrUnder p e.1) }

/-- The `ioutil.TempFile` handle: its content and its current offset.
The source writes into it and never seeks, so the offset ends at the
content length. -/
structure TempFile where
  content : Bytes
  pos : Nat
deriving DecidableEq

/-- Source `appendChunk`: open `<uploadDir>/<name>` and copy its bytes into
the temp file.  Opening a missing path fails; copying from a directory
fails (`EISDIR`), as on Linux. -/
def appendChunk (fs : FS) (dirStr name : String) (fullFile : TempFile) :
    Except Err TempFile :=
  match fileContent? fs (dirStr ++ "/" ++ name) with
  | some bs => .ok ⟨fullFile.content ++ bs, fullFile.pos + bs.length⟩
  | none =>
      if fs.dirs.contains (dirStr ++ "/" ++ name) then
        .error (.osErr "read" (dirStr ++ "/" ++ name) "is a directory")
      else
        .error (.osErr "open" (dirStr ++ "/" ++ name) "no such file or directory")

/-- The copy loop of `RebuildFile` over the sorted entries. -/
def copyChunks (fs : FS) (dirStr : String) :
    List String → TempFile → Except Err TempFile
  | [], acc => .ok acc
  | n :: ns, acc =>
      match appendChunk fs dirStr n acc with
      | .error e => .error e
      | .ok acc1 => copyChunks fs dirStr ns acc1

/-- Source `RebuildFile`.  Faithful to the source, the `dir` argument is
ignored: the listing, the per-entry opens and the final `os.RemoveAll` all
use the package-level constant `uploadDir`.  The removal runs only after
every sorted entry was copied. -/
def RebuildFile (fs : FS) (dir : String) : Except Err (FS × TempFile) :=
  match ioReadDir fs uploadDir with
  | .error e => .error e
  | .ok names =>
    match copyChunks fs uploadDir (sortByChunk names) ⟨[], 0⟩ with
    | .error e => .error e
    | .ok tf => .ok (removeAll fs uploadDir, tf)

/-- Reading the temp file from its current offset, as the final `io.Copy`
does (the source never seeks back to the start). -/
def readRest (tf : TempFile) : Bytes := tf.content.drop tf.pos

/-- Source `CompleteChunk`: rebuild (wrapping failures), create the final
file (wrapping failures), and copy the temp file's remaining bytes into it. -/
def CompleteChunk (fs : FS) (uploadID filename : String) : Except Err FS :=
  match RebuildFile fs (uploadDir ++ "/" ++ uploadID) with
  | .error e => .error (.wrap "failed to rebuild file " e)
  | .ok (fs1, f) =>
    match osCreate fs1 filename with
    | .error e => .error (.wrap "failed creating file " e)
    | .ok fs2 => .ok (setFile fs2 filename (readRest f))

/-- The five mandated form names, in decode order. -/
def expectedNames : List String :=
  ["upload_id", "chunk_number", "total_chunks", "total_file_size", "file_name"]

/-- A multipart body whose parts are in the mandated order. -/
def mandatedBody (uid cn tc tfs fn payload : String) : List FormPart :=
  [⟨"upload_id", uid⟩, ⟨"chunk_number", cn⟩, ⟨"total_chunks", tc⟩,
   ⟨"total_file_size", tfs⟩, ⟨"file_name", fn⟩, ⟨"", payload⟩]

/-- Follows the claim's words for C7, not the source: order chunk file
names by their value as a base-10 integer, with any name that fails to
parse ordered as the value zero. -/
def specSortKey (s : String) : Int :=
  match goParseInt s 64 with
  | (v, none) => v
  | (_, some _) => 0

def specLE (a b : String) : Prop := specSortKey a ≤ specSortKey b

instance : DecidableRel specLE := fun a b =>
  inferInstanceAs (Decidable (specSortKey a ≤ specSortKey b))

/-- The ordering the claim C7 describes, applied as a sort. -/
def specOrder (names : List String) : List String :=
  List.insertionSort specLE names


/-! ### Concrete scenarios -/

/-- A filesystem in which the chunk root `./data/chunks` exists and is
empty (the repository ships the directory; the code never creates it). -/
def fs0 : FS := { dirs := [".", "./data", "./data/chunks"], files := [] }

/-- The spec's example upload: both chunks of `Hello, World!` staged
correctly under `./data/chunks/abc123`, as the spec intends them to be. -/
def fsStaged : FS :=
  { dirs := [".", "./data", "./data/chunks", "./data/chunks/abc123"],
    files := [("./data/chunks/abc123/0", "Hello, ".data),
              ("./data/chunks/abc123/1", "World!".data)] }

/-- The two chunk files placed directly inside the chunk root, the only
layout from which the rebuild loop can read them. -/
def fsFlat : FS :=
  { dirs := [".", "./data", "./data/chunks"],
    files := [("./data/chunks/0", "Hello, ".data),
              ("./data/chunks/1", "World!".data)] }

/-- Result state of `CompleteChunk fsFlat "abc123" "greeting.txt"`. -/
def fsFlatRes : FS :=
  { dirs := [".", "./data"], files := [("greeting.txt", [])] }

/-- C1: the claimed round trip — store all chunks of a file under one
upload identifier, complete, and obtain the original bytes — fails on the
code at the spec's own example (`Hello, ` / `World!` under id `abc123`):
(1) `ProcessChunk` cannot store the first chunk, because it creates the
directory `abc123` instead of the staging directory
`./data/chunks/abc123` that `StoreChunk` writes into; (2) even with both
chunks staged exactly as the spec intends, `CompleteChunk` fails, because
`RebuildFile` lists the fixed chunk root (whose entry is the staging
*directory*, unreadable as a file); (3) even with the chunk files laid
flat where the rebuild loop can read them, the completed file is empty —
the temp file is never rewound before the final copy — so the result
never equals the original `Hello, World!`. -/
theorem roundtrip_reassembly_code_bug :
    (ProcessChunk fs0 (mandatedBody "abc123" "0" "2" "13" "greeting.txt" "Hello, ")
      = .error (.osErr "open" "./data/chunks/abc123/0" "no such file or directory")) ∧
    (CompleteChunk fsStaged "abc123" "greeting.txt"
      = .error (.wrap "failed to rebuild file "
          (.osErr "read" "./data/chunks/abc123" "is a directory"))) ∧
    (CompleteChunk fsFlat "abc123" "greeting.txt" = .ok fsFlatRes) ∧
    (fileContent? fsFlatRes "greeting.txt" = some []) ∧
    ("Hello, World!".data ≠ []) := by
  exact ⟨rfl, rfl, rfl, rfl, by decide⟩

/-- State of `fs0` after `os.MkdirAll("u2", 02750)`, the call
`ProcessChunk` actually makes for upload id `u2`. -/
def fs0AfterMkdir : FS :=
  { dirs := [".", "./data", "./data/chunks", "u2"], files := [] }

/-- C2: the claim that `ProcessChunk` ensures the staging directory
`<chunk-root>/<upload identifier>` exists before the chunk file is
created is false of the code: for upload id `u2` the directory created is
the bare `u2` (relative to the working directory), the staging directory
`./data/chunks/u2` is not created, and the subsequent `StoreChunk` fails
to create `./data/chunks/u2/0` because its parent directory is missing. -/
theorem staging_dir_creation_code_bug :
    (mkdirAll fs0 "u2" = .ok fs0AfterMkdir) ∧
    (fs0AfterMkdir.dirs.contains "u2" = true) ∧
    (fs0AfterMkdir.dirs.contains "./data/chunks/u2" = false) ∧
    (ProcessChunk fs0 (mandatedBody "u2" "0" "2" "13" "g.txt" "hi")
      = .error (.osErr "open" "./data/chunks/u2/0" "no such file or directory")) := by
  exact ⟨rfl, rfl, rfl, rfl⟩

/-- Two uploads `ua` and `ub`, each with one chunk correctly staged in
its own staging directory. -/
def fsTwo : FS :=
  { dirs := [".", "./data", "./data/chunks", "./data/chunks/ua", "./data/chunks/ub"],
    files := [("./data/chunks/ua/0", "AA".data), ("./data/chunks/ub/0", "BB".data)] }

/-- C3: the claim that completion enumerates exactly the chunk files of
the identifier's own staging directory is false of the code: completing
upload `ua` lists the fixed chunk root — whose entries are the staging
directories of *both* uploads, `ua` and `ub` — rather than the chunk
files `["0"]` of `./data/chunks/ua`, and then fails trying to read the
directory entry as a file. -/
theorem rebuild_enumeration_code_bug :
    (ioReadDir fsTwo uploadDir = .ok ["ua", "ub"]) ∧
    (ioReadDir fsTwo (uploadDir ++ "/" ++ "ua") = .ok ["0"]) ∧
    (CompleteChunk fsTwo "ua" "out.txt"
      = .error (.wrap "failed to rebuild file "
          (.osErr "read" "./data/chunks/ua" "is a directory"))) := by
  exact ⟨rfl, rfl, rfl⟩

/-! ### Helper lemmas -/

theorem osCreate_ok {fs : FS} {p : String} {fs' : FS}
    (h : osCreate fs p = .ok fs') :
    fs'.dirs = fs.dirs ∧
    fs'.files = (p, ([] : Bytes)) :: fs.files.filter (fun e => e.1 != p) := by
  unfold osCreate at h
  split at h
  · exact Except.noConfusion h
  · split at h
    · injection h with h
      subst h
      exact ⟨rfl, rfl⟩
    · exact Except.noConfusion h

theorem RebuildFile_ok {fs : FS} {dir : String} {fs' : FS} {tf : TempFile}
    (h : RebuildFile fs dir = .ok (fs', tf)) :
    fs' = removeAll fs uploadDir ∧
    ∃ names, ioReadDir fs uploadDir = .ok names ∧
      copyChunks fs uploadDir (sortByChunk names) ⟨[], 0⟩ = .ok tf := by
  unfold RebuildFile at h
  split at h
  · exact Except.noConfusion h
  · rename_i names hread
    split at h
    · exact Except.noConfusion h
    · rename_i tf1 hcopy
      injection h with h
      injection h with h1 h2
      subst h1
      subst h2
      exact ⟨rfl, names, hread, hcopy⟩

/-- C4: when a per-chunk read or copy fails during reassembly,
`RebuildFile` and `CompleteChunk` return the (wrapped) error and the
removal step is never reached — no directory or file is deleted; and
conversely a successful `RebuildFile` implies every sorted listed entry
was copied successfully, the removal being applied only then. -/
theorem partial_failure_preserves_state :
    (∀ (fs : FS) (uploadID filename : String) (names : List String) (e : Err),
        ioReadDir fs uploadDir = .ok names →
        copyChunks fs uploadDir (sortByChunk names) ⟨[], 0⟩ = .error e →
        RebuildFile fs (uploadDir ++ "/" ++ uploadID) = .error e ∧
        CompleteChunk fs uploadID filename
          = .error (.wrap "failed to rebuild file " e)) ∧
    (∀ (fs : FS) (dir : String) (fs' : FS) (tf : TempFile),
        RebuildFile fs dir = .ok (fs', tf) →
        fs' = removeAll fs uploadDir ∧
        ∃ names, ioReadDir fs uploadDir = .ok names ∧
          copyChunks fs uploadDir (sortByChunk names) ⟨[], 0⟩ = .ok tf) := by
  constructor
  · intro fs uploadID filename names e hread hcopy
    have hreb : RebuildFile fs (uploadDir ++ "/" ++ uploadID) = .error e := by
      simp only [RebuildFile, hread, hcopy]
    refine ⟨hreb, ?_⟩
    simp only [CompleteChunk, hreb]
  · intro fs dir fs' tf h
    exact RebuildFile_ok h

/-- The chunk root containing a stray directory entry `w9`, which makes
the copy step of the rebuild fail. -/
def fsW4 : FS :=
  { dirs := [".", "./data", "./data/chunks", "./data/chunks/w9"], files := [] }

theorem partial_failure_preserves_state_witness :
    ioReadDir fsW4 uploadDir = .ok ["w9"] ∧
    copyChunks fsW4 uploadDir (sortByChunk ["w9"]) ⟨[], 0⟩
      = .error (.osErr "read" "./data/chunks/w9" "is a directory") ∧
    CompleteChunk fsW4 "w9" "o.txt"
      = .error (.wrap "failed to rebuild file "
          (.osErr "read" "./data/chunks/w9" "is a directory")) :=
  ⟨rfl, rfl,
   (partial_failure_preserves_state.1 fsW4 "w9" "o.txt" ["w9"]
      (.osErr "read" "./data/chunks/w9" "is a directory") rfl rfl).2⟩

/-- C10: after any successful `CompleteChunk`, for any upload identifier,
nothing at or under the fixed chunk root `./data/chunks` remains: no
directory at or under the root survives, and the only file possibly at or
under it is the freshly written destination file itself — in particular
the staged chunks of every other in-progress upload identifier are
removed as well, since `RebuildFile` deletes the entire chunk root
recursively rather than only the completed upload's staging directory. -/
theorem cleanup_removes_chunk_root :
    ∀ (fs : FS) (uploadID filename : String) (fs' : FS),
      CompleteChunk fs uploadID filename = .ok fs' →
      (∀ d ∈ fs'.dirs, atOrUnder uploadDir d = false) ∧
      (∀ p bs, (p, bs) ∈ fs'.files → atOrUnder uploadDir p = true → p = filename) := by
  intro fs uploadID filename fs' h
  unfold CompleteChunk at h
  split at h
  · exact Except.noConfusion h
  · rename_i fs1 f hreb
    split at h
    · exact Except.noConfusion h
    · rename_i fs2 hcreate
      injection h with h
      subst h
      obtain ⟨hd, hf⟩ := osCreate_ok hcreate
      obtain ⟨hfs1, -⟩ := RebuildFile_ok hreb
      constructor
      · intro d hdmem
        have hmem2 : d ∈ (removeAll fs uploadDir).dirs := by
          have hmem1 : d ∈ fs2.dirs := hdmem
          rw [hd, hfs1] at hmem1
          exact hmem1
        simp only [removeAll, List.mem_filter] at hmem2
        simpa using hmem2.2
      · intro p bs hmem htrue
        simp only [setFile, List.mem_cons] at hmem
        rcases hmem with hp | hmem
        · exact congrArg Prod.fst hp
        · have hmem2 := (List.mem_filter.mp hmem).1
          rw [hf] at hmem2
          rcases List.mem_cons.mp hmem2 with hp | hmem3
          · exact congrArg Prod.fst hp
          · have hmem4 := (List.mem_filter.mp hmem3).1
            rw [hfs1] at hmem4
            have hfalse := (List.mem_filter.mp hmem4).2
            simp only [Bool.not_eq_true'] at hfalse
            rw [htrue] at hfalse
            exact absurd hfalse (by simp)

theorem fileContent?_setFile (fs : FS) (p : String) (bs : Bytes) :
    fileContent? (setFile fs p bs) p = some bs := by
  simp [fileContent?, setFile]

/-- C5: provided the chunk file could be created, `StoreChunk` succeeds —
a payload ending before the cap is not an error (`io.EOF` is tolerated)
and a payload at or beyond the cap is not an error either — and the
persisted content is exactly the first `maxChunkSize` bytes of the
payload: a payload of at least the cap's length yields a file of exactly
`maxChunkSize` (5 MiB) bytes, and a shorter payload is stored whole. -/
theorem store_chunk_cap :
    ∀ (fs : FS) (chunk : Chunk) (fs1 : FS),
      osCreate fs (chunk.UploadDir ++ "/" ++ toString chunk.ChunkNumber) = .ok fs1 →
      StoreChunk fs chunk
        = .ok (setFile fs1 (chunk.UploadDir ++ "/" ++ toString chunk.ChunkNumber)
            (chunk.Data.take maxChunkSize)) ∧
      fileContent?
          (setFile fs1 (chunk.UploadDir ++ "/" ++ toString chunk.ChunkNumber)
            (chunk.Data.take maxChunkSize))
          (chunk.UploadDir ++ "/" ++ toString chunk.ChunkNumber)
        = some (chunk.Data.take maxChunkSize) ∧
      (maxChunkSize ≤ chunk.Data.length →
        (chunk.Data.take maxChunkSize).length = maxChunkSize) ∧
      (chunk.Data.length ≤ maxChunkSize →
        chunk.Data.take maxChunkSize = chunk.Data) := by
  intro fs chunk fs1 hc
  refine ⟨?_, fileContent?_setFile _ _ _, ?_, ?_⟩
  · simp only [StoreChunk, hc]
  · intro h
    simp [List.length_take, Nat.min_eq_left h]
  · intro h
    exact List.take_of_length_le h

/-- An existing staging directory `s` for the C5 witness. -/
def fsW5 : FS := { dirs := ["s"], files := [] }

/-- A chunk whose payload (2 bytes) ends before the cap. -/
def chunkW5s : Chunk :=
  { UploadID := "w", ChunkNumber := 1, TotalChunks := 1, TotalFileSize := 2,
    Filename := "f", Data := "ab".data, UploadDir := "s" }

/-- A chunk whose payload is one byte longer than the cap. -/
def chunkW5l : Chunk :=
  { UploadID := "w", ChunkNumber := 2, TotalChunks := 1, TotalFileSize := 2,
    Filename := "f", Data := List.replicate (maxChunkSize + 1) 'x', UploadDir := "s" }

/-- Result of `os.Create` on the short chunk's path. -/
def fsW5s : FS := { dirs := ["s"], files := [("s/1", [])] }

/-- Result of `os.Create` on the long chunk's path. -/
def fsW5l : FS := { dirs := ["s"], files := [("s/2", [])] }

theorem store_chunk_cap_witness :
    (StoreChunk fsW5 chunkW5s
      = .ok (setFile fsW5s (chunkW5s.UploadDir ++ "/" ++ toString chunkW5s.ChunkNumber)
          (chunkW5s.Data.take maxChunkSize))) ∧
    (chunkW5s.Data.take maxChunkSize = chunkW5s.Data) ∧
    (StoreChunk fsW5 chunkW5l
      = .ok (setFile fsW5l (chunkW5l.UploadDir ++ "/" ++ toString chunkW5l.ChunkNumber)
          (chunkW5l.Data.take maxChunkSize))) ∧
    ((chunkW5l.Data.take maxChunkSize).length = maxChunkSize) :=
  ⟨(store_chunk_cap fsW5 chunkW5s fsW5s rfl).1,
   (store_chunk_cap fsW5 chunkW5s fsW5s rfl).2.2.2 (by decide),
   (store_chunk_cap fsW5 chunkW5l fsW5l rfl).1,
   (store_chunk_cap fsW5 chunkW5l fsW5l rfl).2.2.1 (by
      simp [chunkW5l, List.length_replicate])⟩

theorem string_append_cancel_left {p a b : String} (h : p ++ a = p ++ b) :
    a = b := by
  obtain ⟨pd⟩ := p
  obtain ⟨ad⟩ := a
  obtain ⟨bd⟩ := b
  have hd : pd ++ ad = pd ++ bd := congrArg String.data h
  exact congrArg String.mk (List.append_cancel_left hd)

theorem ParseChunk_ok_uploadDir {ps : List FormPart} {c : Chunk}
    (h : ParseChunk ps = .ok c) :
    c.UploadDir = uploadDir ++ "/" ++ c.UploadID := by
  unfold ParseChunk at h
  repeat' split at h
  all_goals first
    | exact Except.noConfusion h
    | (injection h with h; subst h; rfl)

/-- C9: two decoded chunks carrying different upload identifiers always
have different staging directories: `ParseChunk` derives the staging
directory as `<chunk root>/<upload identifier>`, that derivation is
injective in the identifier, so no two distinct identifiers map to the
same staging directory, and the chunk files `StoreChunk` creates —
always directly inside the chunk's `UploadDir` — lie in different
staging directories even when the chunk indices collide. -/
theorem upload_isolation :
    (∀ (ps1 ps2 : List FormPart) (c1 c2 : Chunk),
        ParseChunk ps1 = .ok c1 → ParseChunk ps2 = .ok c2 →
        c1.UploadID ≠ c2.UploadID →
        c1.UploadDir ≠ c2.UploadDir ∧ (c1.UploadDir == c2.UploadDir) = false) ∧
    (∀ id1 id2 : String, id1 ≠ id2 →
        uploadDir ++ "/" ++ id1 ≠ uploadDir ++ "/" ++ id2) := by
  have key : ∀ id1 id2 : String, id1 ≠ id2 →
      uploadDir ++ "/" ++ id1 ≠ uploadDir ++ "/" ++ id2 := by
    intro id1 id2 hne heq
    exact hne (string_append_cancel_left heq)
  refine ⟨?_, key⟩
  intro ps1 ps2 c1 c2 h1 h2 hne
  have hd : c1.UploadDir ≠ c2.UploadDir := by
    rw [ParseChunk_ok_uploadDir h1, ParseChunk_ok_uploadDir h2]
    exact key _ _ hne
  exact ⟨hd, beq_eq_false_iff_ne.mpr hd⟩

def psW9a : List FormPart := mandatedBody "A" "0" "1" "1" "f" "x"

def psW9b : List FormPart := mandatedBody "B" "0" "1" "1" "f" "x"

/-- The chunk `ParseChunk` produces from `psW9a`. -/
def cW9a : Chunk :=
  { UploadID := "A", ChunkNumber := 0, TotalChunks := 1, TotalFileSize := 1,
    Filename := "f", Data := "x".data, UploadDir := uploadDir ++ "/" ++ "A" }

/-- The chunk `ParseChunk` produces from `psW9b`. -/
def cW9b : Chunk :=
  { UploadID := "B", ChunkNumber := 0, TotalChunks := 1, TotalFileSize := 1,
    Filename := "f", Data := "x".data, UploadDir := uploadDir ++ "/" ++ "B" }

theorem upload_isolation_witness :
    ParseChunk psW9a = .ok cW9a ∧ ParseChunk psW9b = .ok cW9b ∧
    (cW9a.UploadDir == cW9b.UploadDir) = false :=
  ⟨rfl, rfl,
   (upload_isolation.1 psW9a psW9b cW9a cW9b rfl rfl (by decide)).2⟩

/-- The four possible outcome shapes of `goParseInt`. -/
theorem goParseInt_shape (s : String) (bs : Nat) :
    goParseInt s bs = (0, some (.strconvErr s false)) ∨
    goParseInt s bs = (-(2 ^ (bs - 1)), some (.strconvErr s true)) ∨
    goParseInt s bs = (2 ^ (bs - 1) - 1, some (.strconvErr s true)) ∨
    (goParseInt s bs).2 = none := by
  unfold goParseInt
  split
  · exact Or.inl rfl
  · split
    · exact Or.inr (Or.inl rfl)
    · split
      · exact Or.inr (Or.inr (Or.inl rfl))
      · exact Or.inr (Or.inr (Or.inr rfl))

/-- C7 (counterexample): the claim that a file name failing to parse as
an integer is ordered as the value zero is false of the code: the name
`99999999999999999999` fails to parse (64-bit range error), yet
`strconv.Atoi`'s discarded-error value is the clamped maximum 2^63 - 1,
so the code's sort places it *after* `5`, while ordering it as zero
would place it before. -/
theorem numeric_order_zero_counterexample :
    sortByChunk ["99999999999999999999", "5"] = ["5", "99999999999999999999"] ∧
    specOrder ["99999999999999999999", "5"] = ["99999999999999999999", "5"] ∧
    (goParseInt "99999999999999999999" 64).2
      = some (.strconvErr "99999999999999999999" true) ∧
    atoiVal "99999999999999999999" = 2 ^ 63 - 1 ∧
    (atoiVal "99999999999999999999" == 0) = false := by
  exact ⟨rfl, rfl, rfl, by decide, by decide⟩

/-- C7 (amended): during reassembly the staged chunk file names are
ordered ascending by their Go `strconv.Atoi` value — numeric order, never
lexical — and neither the sort nor the rebuild fails on a malformed name:
a name that fails to parse *syntactically* is ordered as the value zero,
while a numeric name that fails only because it is out of 64-bit range is
ordered as the clamped extreme (2^63 - 1, or -2^63 when negative), not as
zero. -/
theorem numeric_order_amended :
    ∀ names : List String,
      List.Sorted byChunkLE (sortByChunk names) ∧
      (sortByChunk names).Perm names ∧
      (∀ s, (goParseInt s 64).2 = some (.strconvErr s false) → atoiVal s = 0) ∧
      (∀ s v, goParseInt s 64 = (v, some (.strconvErr s true)) →
        v = 2 ^ 63 - 1 ∨ v = -(2 ^ 63)) := by
  intro names
  refine ⟨List.sorted_insertionSort _ _, List.perm_insertionSort _ _, ?_, ?_⟩
  · intro s hs
    rcases goParseInt_shape s 64 with h | h | h | h
    · unfold atoiVal
      rw [h]
    · rw [h] at hs
      simp at hs
    · rw [h] at hs
      simp at hs
    · rw [hs] at h
      simp at h
  · intro s v h
    rcases goParseInt_shape s 64 with h1 | h1 | h1 | h1
    · rw [h] at h1
      simp at h1
    · rw [h] at h1
      have hv : v = -(2 ^ (64 - 1)) := congrArg Prod.fst h1
      exact Or.inr hv
    · rw [h] at h1
      have hv : v = (2 ^ (64 - 1) - 1 : Int) := congrArg Prod.fst h1
      exact Or.inl hv
    · rw [h] at h1
      simp at h1

theorem numeric_order_amended_witness :
    List.Sorted byChunkLE (sortByChunk ["10", "2", "zz"]) ∧
    (sortByChunk ["10", "2", "zz"]).Perm ["10", "2", "zz"] ∧
    atoiVal "zz" = 0 ∧
    sortByChunk ["10", "2", "zz"] = ["zz", "2", "10"] :=
  ⟨(numeric_order_amended ["10", "2", "zz"]).1,
   (numeric_order_amended ["10", "2", "zz"]).2.1,
   (numeric_order_amended ["10", "2", "zz"]).2.2.1 "zz" rfl,
   rfl⟩

theorem strData_append (x y : String) : (x ++ y).data = x.data ++ y.data := rfl

theorem strExt {x y : String} (h : x.data = y.data) : x = y := by
  obtain ⟨xd⟩ := x
  obtain ⟨yd⟩ := y
  exact congrArg String.mk h

theorem strAppend_assoc (x y z : String) : (x ++ y) ++ z = x ++ (y ++ z) :=
  strExt (List.append_assoc x.data y.data z.data)

theorem strContains_append_mid (x y z : String) : strContains (x ++ y ++ z) y := by
  show y.data <:+: (x ++ y ++ z).data
  have h : (x ++ y ++ z).data = x.data ++ y.data ++ z.data := rfl
  rw [h]
  exact List.infix_append x.data y.data z.data

/-- The rendered name-mismatch error message contains the expected name. -/
theorem strContains_mismatch_expected (e a : String) :
    strContains (errText (.nameMismatch e a)) e := by
  have h : errText (.nameMismatch e a)
      = "invalid form name for part. Expected " ++ e ++ (" got " ++ a) := by
    show (("invalid form name for part. Expected " ++ e) ++ " got ") ++ a = _
    rw [strAppend_assoc]
  rw [h]
  exact strContains_append_mid _ _ _

/-- The rendered name-mismatch error message contains the actual name. -/
theorem strContains_mismatch_actual (e a : String) :
    strContains (errText (.nameMismatch e a)) a := by
  show a.data <:+: (errText (.nameMismatch e a)).data
  have h : (errText (.nameMismatch e a)).data
      = ("invalid form name for part. Expected " ++ e ++ " got ").data ++ a.data := rfl
  rw [h]
  exact (List.suffix_append _ _).isInfix

/-- A filesystem in which a file named `blocked` occupies the path that
`ProcessChunk` will try to create as a directory. -/
def fsB : FS := { dirs := ["."], files := [("blocked", "x".data)] }

def partsB : List FormPart := mandatedBody "blocked" "0" "1" "1" "f" "p"

/-- C8 (counterexample): the claim that every error returned from the two
entry points is wrapped with context is false of the code: a
staging-directory creation failure (`os.MkdirAll`) and a chunk-file
creation failure (`os.Create`) both propagate out of `ProcessChunk`
bare, with no wrapping at all. -/
theorem error_context_counterexample :
    (ProcessChunk fsB partsB = .error (.osErr "mkdir" "blocked" "not a directory")) ∧
    (isWrapped (.osErr "mkdir" "blocked" "not a directory") = false) ∧
    (ProcessChunk fs0 (mandatedBody "u8" "0" "1" "1" "f" "p")
      = .error (.osErr "open" "./data/chunks/u8/0" "no such file or directory")) ∧
    (isWrapped (.osErr "open" "./data/chunks/u8/0" "no such file or directory") = false) :=
  ⟨rfl, rfl, rfl, rfl⟩

/-- C8 (amended): decode failures are wrapped by `ProcessChunk` with the
context "failed to parse chunk" (and, inside the decoder, part-read
failures carry the field name, while the integer-parse failures of steps
2–4 are returned bare by `ParseChunk`); rebuild failures are wrapped by
`CompleteChunk` with "failed to rebuild file"; but the
staging-directory creation error of `os.MkdirAll` and the chunk-file
creation/copy error of `StoreChunk` propagate out of `ProcessChunk`
bare, with no added context. -/
theorem error_context_amended :
    (∀ (fs : FS) (ps : List FormPart) (e : Err),
        ParseChunk ps = .error e →
        ProcessChunk fs ps = .error (.wrap "failed to parse chunk " e)) ∧
    (∀ (fs : FS) (ps : List FormPart) (c : Chunk) (e : Err),
        ParseChunk ps = .ok c → mkdirAll fs c.UploadID = .error e →
        ProcessChunk fs ps = .error e) ∧
    (∀ (fs : FS) (ps : List FormPart) (c : Chunk) (fs1 : FS) (e : Err),
        ParseChunk ps = .ok c → mkdirAll fs c.UploadID = .ok fs1 →
        StoreChunk fs1 c = .error e →
        ProcessChunk fs ps = .error e) ∧
    (∀ (fs : FS) (uploadID filename : String) (e : Err),
        RebuildFile fs (uploadDir ++ "/" ++ uploadID) = .error e →
        CompleteChunk fs uploadID filename
          = .error (.wrap "failed to rebuild file " e)) := by
  refine ⟨?_, ?_, ?_, ?_⟩
  · intro fs ps e h
    simp only [ProcessChunk, h]
  · intro fs ps c e hp hm
    simp only [ProcessChunk, hp, hm]
  · intro fs ps c fs1 e hp hm hs
    simp only [ProcessChunk, hp, hm, hs]
  · intro fs uploadID filename e h
    simp only [CompleteChunk, h]

/-- The chunk decoded from `partsB2` below. -/
def cB2 : Chunk :=
  { UploadID := "taken", ChunkNumber := 0, TotalChunks := 1, TotalFileSize := 1,
    Filename := "g", Data := "q".data, UploadDir := uploadDir ++ "/" ++ "taken" }

def fsB2 : FS := { dirs := ["."], files := [("taken", "y".data)] }

def partsB2 : List FormPart := mandatedBody "taken" "0" "1" "1" "g" "q"

theorem error_context_amended_witness :
    (ProcessChunk fsB2 [] = .error (.wrap "failed to parse chunk "
        (.wrap "failed reading upload_id part " .ioEOF))) ∧
    (ProcessChunk fsB2 partsB2 = .error (.osErr "mkdir" "taken" "not a directory")) :=
  ⟨error_context_amended.1 fsB2 []
      (.wrap "failed reading upload_id part " .ioEOF) rfl,
   error_context_amended.2.1 fsB2 partsB2 cB2
      (.osErr "mkdir" "taken" "not a directory") rfl rfl⟩

set_option maxRecDepth 8192 in
/-- C6: decoding a multipart body whose six parts arrive in any order
other than the mandated `upload_id`, `chunk_number`, `total_chunks`,
`total_file_size`, `file_name`, payload (a permutation of a well-formed
body differing from it) fails at the first out-of-place part — the first
position whose part deviates from the mandated body, necessarily among
the five named steps — with a name-mismatch error that carries both the
expected field name for that step and the actual field name received,
and whose rendered text contains both names. -/
theorem parse_order_enforced :
    ∀ (uid cn tc tfs fn payload : String) (ps : List FormPart),
      (goParseInt cn 32).2 = none →
      (goParseInt tc 32).2 = none →
      (goParseInt tfs 64).2 = none →
      ps.Perm (mandatedBody uid cn tc tfs fn payload) →
      ps ≠ mandatedBody uid cn tc tfs fn payload →
      ∃ k exp pk,
        k < 5 ∧
        expectedNames.get? k = some exp ∧
        ps.get? k = some pk ∧
        pk.formName ≠ exp ∧
        (∀ j, j < k → ps.get? j = (mandatedBody uid cn tc tfs fn payload).get? j) ∧
        ParseChunk ps = .error (.nameMismatch exp pk.formName) ∧
        strContains (errText (.nameMismatch exp pk.formName)) exp ∧
        strContains (errText (.nameMismatch exp pk.formName)) pk.formName := by
  intro uid cn tc tfs fn payload ps hcn htc htfs hperm hne
  have hlen : ps.length = 6 := by
    have h := hperm.length_eq
    simpa [mandatedBody] using h
  obtain ⟨a, b, c, d, e5, f, rfl⟩ :
      ∃ a b c d e5 f, ps = [a, b, c, d, e5, f] := by
    rcases ps with _ | ⟨a, _ | ⟨b, _ | ⟨c, _ | ⟨d, _ | ⟨e5, _ | ⟨f, _ | ⟨g, t⟩⟩⟩⟩⟩⟩⟩
    · simp at hlen
    · simp at hlen
    · simp at hlen
    · simp at hlen
    · simp at hlen
    · simp at hlen
    · exact ⟨a, b, c, d, e5, f, rfl⟩
    · simp at hlen
  simp only [mandatedBody] at hperm hne
  by_cases hA : a = (⟨"upload_id", uid⟩ : FormPart)
  · subst hA
    have hperm1 : [b, c, d, e5, f].Perm [(⟨"chunk_number", cn⟩ : FormPart),
        ⟨"total_chunks", tc⟩, ⟨"total_file_size", tfs⟩, ⟨"file_name", fn⟩,
        ⟨"", payload⟩] := hperm.cons_inv
    have hne1 : [b, c, d, e5, f] ≠ [(⟨"chunk_number", cn⟩ : FormPart),
        ⟨"total_chunks", tc⟩, ⟨"total_file_size", tfs⟩, ⟨"file_name", fn⟩,
        ⟨"", payload⟩] := by
      intro h
      exact hne (by rw [h])
    by_cases hB : b = (⟨"chunk_number", cn⟩ : FormPart)
    · subst hB
      have hperm2 : [c, d, e5, f].Perm [(⟨"total_chunks", tc⟩ : FormPart),
          ⟨"total_file_size", tfs⟩, ⟨"file_name", fn⟩, ⟨"", payload⟩] :=
        hperm1.cons_inv
      have hne2 : [c, d, e5, f] ≠ [(⟨"total_chunks", tc⟩ : FormPart),
          ⟨"total_file_size", tfs⟩, ⟨"file_name", fn⟩, ⟨"", payload⟩] := by
        intro h
        exact hne1 (by rw [h])
      by_cases hC : c = (⟨"total_chunks", tc⟩ : FormPart)
      · subst hC
        have hperm3 : [d, e5, f].Perm [(⟨"total_file_size", tfs⟩ : FormPart),
            ⟨"file_name", fn⟩, ⟨"", payload⟩] := hperm2.cons_inv
        have hne3 : [d, e5, f] ≠ [(⟨"total_file_size", tfs⟩ : FormPart),
            ⟨"file_name", fn⟩, ⟨"", payload⟩] := by
          intro h
          exact hne2 (by rw [h])
        by_cases hD : d = (⟨"total_file_size", tfs⟩ : FormPart)
        · subst hD
          have hperm4 : [e5, f].Perm [(⟨"file_name", fn⟩ : FormPart),
              ⟨"", payload⟩] := hperm3.cons_inv
          have hne4 : [e5, f] ≠ [(⟨"file_name", fn⟩ : FormPart), ⟨"", payload⟩] := by
            intro h
            exact hne3 (by rw [h])
          by_cases hE : e5 = (⟨"file_name", fn⟩ : FormPart)
          · subst hE
            have hperm5 : [f].Perm [(⟨"", payload⟩ : FormPart)] := hperm4.cons_inv
            have hf : f = (⟨"", payload⟩ : FormPart) := by
              have hm : f ∈ [(⟨"", payload⟩ : FormPart)] :=
                hperm5.mem_iff.mp (by simp)
              simpa using hm
            subst hf
            exact absurd rfl hne4
          · have hmem : e5 ∈ [(⟨"file_name", fn⟩ : FormPart), ⟨"", payload⟩] :=
              hperm4.mem_iff.mp (by simp)
            have hname : e5.formName ≠ "file_name" := by
              intro hn
              apply hE
              simp only [List.mem_cons, List.not_mem_nil, or_false] at hmem
              rcases hmem with h | h
              · exact h
              · rw [h] at hn
                simp at hn
            refine ⟨4, "file_name", e5, by omega, rfl, rfl, hname, ?_, ?_,
                strContains_mismatch_expected _ _, strContains_mismatch_actual _ _⟩
            · intro j hj
              interval_cases j <;> rfl
            · have h1 : getPart "upload_id" [(⟨"upload_id", uid⟩ : FormPart),
                  ⟨"chunk_number", cn⟩, ⟨"total_chunks", tc⟩,
                  ⟨"total_file_size", tfs⟩, e5, f]
                  = .ok (uid, [(⟨"chunk_number", cn⟩ : FormPart),
                      ⟨"total_chunks", tc⟩, ⟨"total_file_size", tfs⟩, e5, f]) := by
                rfl
              have h2 : getPart "chunk_number" [(⟨"chunk_number", cn⟩ : FormPart),
                  ⟨"total_chunks", tc⟩, ⟨"total_file_size", tfs⟩, e5, f]
                  = .ok (cn, [(⟨"total_chunks", tc⟩ : FormPart),
                      ⟨"total_file_size", tfs⟩, e5, f]) := by
                rfl
              obtain ⟨v3, h3⟩ : ∃ v, goParseInt cn 32 = (v, none) :=
                ⟨(goParseInt cn 32).1, by rw [← hcn]⟩
              have h4 : getPart "total_chunks" [(⟨"total_chunks", tc⟩ : FormPart),
                  ⟨"total_file_size", tfs⟩, e5, f]
                  = .ok (tc, [(⟨"total_file_size", tfs⟩ : FormPart), e5, f]) := by
                rfl
              obtain ⟨v5, h5⟩ : ∃ v, goParseInt tc 32 = (v, none) :=
                ⟨(goParseInt tc 32).1, by rw [← htc]⟩
              have h6 : getPart "total_file_size"
                  [(⟨"total_file_size", tfs⟩ : FormPart), e5, f]
                  = .ok (tfs, [e5, f]) := by
                rfl
              obtain ⟨v7, h7⟩ : ∃ v, goParseInt tfs 64 = (v, none) :=
                ⟨(goParseInt tfs 64).1, by rw [← htfs]⟩
              have h8 : getPart "file_name" [e5, f]
                  = .error (.nameMismatch "file_name" e5.formName) := by
                simp [getPart, hname]
              simp only [ParseChunk, h1, h2, h3, h4, h5, h6, h7, h8]
        · have hmem : d ∈ [(⟨"total_file_size", tfs⟩ : FormPart),
              ⟨"file_name", fn⟩, ⟨"", payload⟩] := hperm3.mem_iff.mp (by simp)
          have hname : d.formName ≠ "total_file_size" := by
            intro hn
            apply hD
            simp only [List.mem_cons, List.not_mem_nil, or_false] at hmem
            rcases hmem with h | h | h
            · exact h
            · rw [h] at hn
              simp at hn
            · rw [h] at hn
              simp at hn
          refine ⟨3, "total_file_size", d, by omega, rfl, rfl, hname, ?_, ?_,
              strContains_mismatch_expected _ _, strContains_mismatch_actual _ _⟩
          · intro j hj
            interval_cases j <;> rfl
          · have h1 : getPart "upload_id" [(⟨"upload_id", uid⟩ : FormPart),
                ⟨"chunk_number", cn⟩, ⟨"total_chunks", tc⟩, d, e5, f]
                = .ok (uid, [(⟨"chunk_number", cn⟩ : FormPart),
                    ⟨"total_chunks", tc⟩, d, e5, f]) := by
              rfl
            have h2 : getPart "chunk_number" [(⟨"chunk_number", cn⟩ : FormPart),
                ⟨"total_chunks", tc⟩, d, e5, f]
                = .ok (cn, [(⟨"total_chunks", tc⟩ : FormPart), d, e5, f]) := by
              rfl
            obtain ⟨v3, h3⟩ : ∃ v, goParseInt cn 32 = (v, none) :=
              ⟨(goParseInt cn 32).1, by rw [← hcn]⟩
            have h4 : getPart "total_chunks" [(⟨"total_chunks", tc⟩ : FormPart),
                d, e5, f] = .ok (tc, [d, e5, f]) := by
              rfl
            obtain ⟨v5, h5⟩ : ∃ v, goParseInt tc 32 = (v, none) :=
              ⟨(goParseInt tc 32).1, by rw [← htc]⟩
            have h6 : getPart "total_file_size" [d, e5, f]
                = .error (.nameMismatch "total_file_size" d.formName) := by
              simp [getPart, hname]
            simp only [ParseChunk, h1, h2, h3, h4, h5, h6]
      · have hmem : c ∈ [(⟨"total_chunks", tc⟩ : FormPart),
            ⟨"total_file_size", tfs⟩, ⟨"file_name", fn⟩, ⟨"", payload⟩] :=
          hperm2.mem_iff.mp (by simp)
        have hname : c.formName ≠ "total_chunks" := by
          intro hn
          apply hC
          simp only [List.mem_cons, List.not_mem_nil, or_false] at hmem
          rcases hmem with h | h | h | h
          · exact h
          · rw [h] at hn
            simp at hn
          · rw [h] at hn
            simp at hn
          · rw [h] at hn
            simp at hn
        refine ⟨2, "total_chunks", c, by omega, rfl, rfl, hname, ?_, ?_,
            strContains_mismatch_expected _ _, strContains_mismatch_actual _ _⟩
        · intro j hj
          interval_cases j <;> rfl
        · have h1 : getPart "upload_id" [(⟨"upload_id", uid⟩ : FormPart),
              ⟨"chunk_number", cn⟩, c, d, e5, f]
              = .ok (uid, [(⟨"chunk_number", cn⟩ : FormPart), c, d, e5, f]) := by
            rfl
          have h2 : getPart "chunk_number" [(⟨"chunk_number", cn⟩ : FormPart),
              c, d, e5, f] = .ok (cn, [c, d, e5, f]) := by
            rfl
          obtain ⟨v3, h3⟩ : ∃ v, goParseInt cn 32 = (v, none) :=
            ⟨(goParseInt cn 32).1, by rw [← hcn]⟩
          have h4 : getPart "total_chunks" [c, d, e5, f]
              = .error (.nameMismatch "total_chunks" c.formName) := by
            simp [getPart, hname]
          simp only [ParseChunk, h1, h2, h3, h4]
    · have hmem : b ∈ [(⟨"chunk_number", cn⟩ : FormPart), ⟨"total_chunks", tc⟩,
          ⟨"total_file_size", tfs⟩, ⟨"file_name", fn⟩, ⟨"", payload⟩] :=
        hperm1.mem_iff.mp (by simp)
      have hname : b.formName ≠ "chunk_number" := by
        intro hn
        apply hB
        simp only [List.mem_cons, List.not_mem_nil, or_false] at hmem
        rcases hmem with h | h | h | h | h
        · exact h
        · rw [h] at hn
          simp at hn
        · rw [h] at hn
          simp at hn
        · rw [h] at hn
          simp at hn
        · rw [h] at hn
          simp at hn
      refine ⟨1, "chunk_number", b, by omega, rfl, rfl, hname, ?_, ?_,
          strContains_mismatch_expected _ _, strContains_mismatch_actual _ _⟩
      · intro j hj
        interval_cases j <;> rfl
      · have h1 : getPart "upload_id" [(⟨"upload_id", uid⟩ : FormPart),
            b, c, d, e5, f] = .ok (uid, [b, c, d, e5, f]) := by
          rfl
        have h2 : getPart "chunk_number" [b, c, d, e5, f]
            = .error (.nameMismatch "chunk_number" b.formName) := by
          simp [getPart, hname]
        simp only [ParseChunk, h1, h2]
  · have hmem : a ∈ [(⟨"upload_id", uid⟩ : FormPart), ⟨"chunk_number", cn⟩,
        ⟨"total_chunks", tc⟩, ⟨"total_file_size", tfs⟩, ⟨"file_name", fn⟩,
        ⟨"", payload⟩] := hperm.mem_iff.mp (by simp)
    have hname : a.formName ≠ "upload_id" := by
      intro hn
      apply hA
      simp only [List.mem_cons, List.not_mem_nil, or_false] at hmem
      rcases hmem with h | h | h | h | h | h
      · exact h
      · rw [h] at hn
        simp at hn
      · rw [h] at hn
        simp at hn
      · rw [h] at hn
        simp at hn
      · rw [h] at hn
        simp at hn
      · rw [h] at hn
        simp at hn
    refine ⟨0, "upload_id", a, by omega, rfl, rfl, hname, ?_, ?_,
        strContains_mismatch_expected _ _, strContains_mismatch_actual _ _⟩
    · intro j hj
      exact absurd hj (Nat.not_lt_zero j)
    · have h1 : getPart "upload_id" [a, b, c, d, e5, f]
          = .error (.nameMismatch "upload_id" a.formName) := by
        simp [getPart, hname]
      simp only [ParseChunk, h1]

/-- A well-formed body with the first two parts swapped. -/
def psW6 : List FormPart :=
  [⟨"chunk_number", "1"⟩, ⟨"upload_id", "u"⟩, ⟨"total_chunks", "2"⟩,
   ⟨"total_file_size", "13"⟩, ⟨"file_name", "f.txt"⟩, ⟨"", "P"⟩]

theorem parse_order_enforced_witness :
    (goParseInt "1" 32).2 = none ∧
    psW6.Perm (mandatedBody "u" "1" "2" "13" "f.txt" "P") ∧
    psW6 ≠ mandatedBody "u" "1" "2" "13" "f.txt" "P" ∧
    (∃ k exp pk,
        k < 5 ∧
        expectedNames.get? k = some exp ∧
        psW6.get? k = some pk ∧
        pk.formName ≠ exp ∧
        (∀ j, j < k →
          psW6.get? j = (mandatedBody "u" "1" "2" "13" "f.txt" "P").get? j) ∧
        ParseChunk psW6 = .error (.nameMismatch exp pk.formName) ∧
        strContains (errText (.nameMismatch exp pk.formName)) exp ∧
        strContains (errText (.nameMismatch exp pk.formName)) pk.formName) ∧
    ParseChunk psW6 = .error (.nameMismatch "upload_id" "chunk_number") :=
  ⟨rfl, List.Perm.swap _ _ _, by decide,
   parse_order_enforced "u" "1" "2" "13" "f.txt" "P" psW6 rfl rfl rfl
     (List.Perm.swap _ _ _) (by decide),
   rfl⟩

/-- A chunk root holding one stray plain file `3`, the only kind of state
from which `CompleteChunk` can succeed. -/
def fsW10 : FS :=
  { dirs := [".", "./data", "./data/chunks"],
    files := [("./data/chunks/3", "ZZ".data)] }

/-- The state `CompleteChunk fsW10 "u" "out.txt"` produces. -/
def fsW10res : FS := { dirs := [".", "./data"], files := [("out.txt", [])] }

theorem cleanup_removes_chunk_root_witness :
    CompleteChunk fsW10 "u" "out.txt" = .ok fsW10res ∧
    atOrUnder uploadDir "./data" = false ∧
    atOrUnder uploadDir "./data/chunks/3" = true :=
  ⟨rfl,
   (cleanup_removes_chunk_root fsW10 "u" "out.txt" fsW10res rfl).1 "./data"
     (by decide),
   rfl⟩
